import Mathlib

/-!
Verification of the version classification and constraint-preserving update
engine of the pkg-version workspace dependency inspector.

The embedding covers:
* `Semver` : a model of the external `semver` npm library (the functions
  `coerce`, `gt`, `diff`, `validRange`, `satisfies`) as used by the code;
* `getUpdateType` from `src/utils/versionUtils.ts`;
* the flat-specifier rewrite rule shared by `updatePackageJsonDependency`
  (npm) and `updateComposerPackage` (Composer);
* the composite rewrite of `updatePubDevPackage` (`dartUpdater.ts`);
* the operator-defaulting rewrite of `updatePypiPackage` (`pythonUpdater.ts`).
-/

namespace PkgVersion

/-- Pre-release identifier of a semantic version: numeric identifiers are
compared as numbers, alphanumeric ones as strings (semver precedence rules). -/
inductive PreId where
  | num : Nat → PreId
  | str : String → PreId
deriving DecidableEq

/-- Parsed semantic version as produced by the semver library: a
major/minor/patch triple plus a (possibly empty) pre-release identifier list. -/
structure SemVer where
  major : Nat
  minor : Nat
  patch : Nat
  pre : List PreId
deriving DecidableEq

/-- Three-way comparison of natural numbers, returning -1, 0 or 1. -/
def compareNumbers (a b : Nat) : Int :=
  if a < b then -1 else if b < a then 1 else 0

/-- Three-way comparison of strings (lexicographic, as in JavaScript). -/
def compareStrings (a b : String) : Int :=
  if a < b then -1 else if b < a then 1 else 0

/-- Model of semver compareIdentifiers: numeric identifiers compare as
numbers and sort before alphanumeric identifiers. -/
def compareIdents : PreId → PreId → Int
  | .num a, .num b => compareNumbers a b
  | .num _, .str _ => -1
  | .str _, .num _ => 1
  | .str a, .str b => compareStrings a b

/-- Loop of semver comparePre: identifier-wise comparison, a shorter list of
identifiers sorting before any proper extension of it. -/
def comparePreLoop : List PreId → List PreId → Int
  | [], [] => 0
  | [], _ :: _ => -1
  | _ :: _, [] => 1
  | a :: as, b :: bs =>
    let c := compareIdents a b
    if c = 0 then comparePreLoop as bs else c

/-- Model of semver comparePre: a version with a pre-release sorts before the
same version without one; otherwise identifiers are compared pairwise. -/
def comparePre : List PreId → List PreId → Int
  | [], [] => 0
  | [], _ :: _ => 1
  | _ :: _, [] => -1
  | a :: as, b :: bs => comparePreLoop (a :: as) (b :: bs)

/-- Model of semver compareMain: major, then minor, then patch. -/
def compareMain (a b : SemVer) : Int :=
  let cM := compareNumbers a.major b.major
  if cM = 0 then
    let cm := compareNumbers a.minor b.minor
    if cm = 0 then compareNumbers a.patch b.patch else cm
  else cM

/-- Model of semver compare: main triple first, then pre-release. -/
def compareVer (a b : SemVer) : Int :=
  let c := compareMain a b
  if c = 0 then comparePre a.pre b.pre else c

/-- Model of semver.gt. -/
def gtVer (a b : SemVer) : Bool := compareVer a b > 0

/-- Possible results of semver.diff. -/
inductive DiffResult where
  | major | minor | patch | premajor | preminor | prepatch | prerelease
deriving DecidableEq

/-- Tail section of semver diff: first differing main component, with a
"pre" marker when the higher version is a pre-release; when the main triples
agree the versions differ only in pre-release identifiers. -/
def diffMainSection (highHasPre : Bool) (v1 v2 : SemVer) : Option DiffResult :=
  if v1.major ≠ v2.major then some (if highHasPre then .premajor else .major)
  else if v1.minor ≠ v2.minor then some (if highHasPre then .preminor else .minor)
  else if v1.patch ≠ v2.patch then some (if highHasPre then .prepatch else .patch)
  else some .prerelease

/-- Model of semver.diff: null on equal versions, otherwise the semantic
distance, with the special pre-release-to-release cases of the library. -/
def diffVer (v1 v2 : SemVer) : Option DiffResult :=
  let comparison := compareVer v1 v2
  if comparison = 0 then none
  else
    let v1Higher := comparison > 0
    let highVersion := if v1Higher then v1 else v2
    let lowVersion := if v1Higher then v2 else v1
    let highHasPre := !highVersion.pre.isEmpty
    let lowHasPre := !lowVersion.pre.isEmpty
    if lowHasPre && !highHasPre then
      if lowVersion.patch = 0 ∧ lowVersion.minor = 0 then some .major
      else if compareMain lowVersion highVersion = 0 then
        if lowVersion.minor ≠ 0 ∧ lowVersion.patch = 0 then some .minor
        else some .patch
      else diffMainSection highHasPre v1 v2
    else diffMainSection highHasPre v1 v2

/-- Numeric value of a list of decimal digit characters. -/
def digitsToNat (l : List Char) : Nat :=
  l.foldl (fun n c => n * 10 + (c.toNat - 48)) 0

/-- Parse an optional dot-separated numeric component for coercion: a dot
followed by a maximal run of 1 to 16 digits (the length bound of the semver
COERCE regular expression). Returns the component and the remaining input. -/
def coerceDot : List Char → Option (Nat × List Char)
  | '.' :: rest =>
    let run := rest.takeWhile Char.isDigit
    if run.length = 0 ∨ run.length > 16 then none
    else some (digitsToNat run, rest.dropWhile Char.isDigit)
  | _ => none

/-- Scanning loop of semver.coerce (default options): find the first maximal
digit run of length at most 16, read it as the major component, then read
optional `.minor` and `.patch` components; missing components default to 0.
Any pre-release suffix is ignored (the default COERCE regular expression does
not capture it). The fuel argument bounds the scan by the input length. -/
def coerceAux : Nat → List Char → Option SemVer
  | 0, _ => none
  | _ + 1, [] => none
  | fuel + 1, c :: cs =>
    if c.isDigit then
      let run := (c :: cs).takeWhile Char.isDigit
      let rest := (c :: cs).dropWhile Char.isDigit
      if run.length ≤ 16 then
        let maj := digitsToNat run
        match coerceDot rest with
        | none => some ⟨maj, 0, 0, []⟩
        | some (min, rest2) =>
          match coerceDot rest2 with
          | none => some ⟨maj, min, 0, []⟩
          | some (pat, _) => some ⟨maj, min, pat, []⟩
      else
        coerceAux fuel rest
    else
      coerceAux fuel cs

/-- Model of semver.coerce with default options. In the source the result is
passed through semver.valid, which on a coerced version is the identity, so
the composition semver.valid(semver.coerce(s)) is modelled by this function. -/
def coerce (s : String) : Option SemVer :=
  coerceAux s.data.length s.data

/-- Model of semver.validRange from the external semver library. The range
grammar is large; this model is deliberately coarse, and the theorem
getUpdateType_characterization proves that the classifier's result does not
depend on it (every control path that consults it still returns none). -/
def validRangeModel (s : String) : Bool :=
  s == "*" || (coerce s).isSome

/-- Model of semver.satisfies from the external semver library; coarse for
the same reason as validRangeModel, and equally irrelevant to the result by
getUpdateType_characterization. -/
def satisfiesModel (v : SemVer) (r : String) : Bool :=
  match coerce r with
  | some w => compareVer v w = 0
  | none => r == "*"

/-- Lower-casing on the underlying character list; extensionally equal to
String.toLower (see toLowerStr_eq) and used as the embedding of the
JavaScript toLowerCase call so that terms evaluate by kernel reduction. -/
def toLowerStr (s : String) : String :=
  String.mk (s.data.map Char.toLower)

/-- Update classification returned by getUpdateType. -/
inductive UpdateType where
  | major | minor | patch | prerelease | none
deriving DecidableEq

/-- Guard of getUpdateType: true when either side failed to coerce or the
latest version is not strictly greater than the current one. This exact
condition appears twice in the source (the outer if and the re-check). -/
def guardFails : Option SemVer → Option SemVer → Bool
  | some cur, some lat => !(gtVer lat cur)
  | _, _ => true

/-- Final section of getUpdateType: semver.diff on the two coerced versions,
null mapped to none, and only the four expected diff kinds passed through
(anything else falls back to none). -/
def diffBranch : Option SemVer → Option SemVer → UpdateType
  | some cur, some lat =>
    match diffVer cur lat with
    | Option.none => UpdateType.none
    | some DiffResult.major => UpdateType.major
    | some DiffResult.minor => UpdateType.minor
    | some DiffResult.patch => UpdateType.patch
    | some DiffResult.prerelease => UpdateType.prerelease
    | some _ => UpdateType.none
  | _, _ => UpdateType.none

/-- Embedding of getUpdateType (src/utils/versionUtils.ts), parametric in the
models of semver.validRange and semver.satisfies. The structure mirrors the
source: coerce both sides; on guard failure check the any/star specifiers,
then the range logic of the try block (an exception thrown there is caught
and also yields none, so the models being total loses nothing), then re-check
the guard; otherwise classify via semver.diff. -/
def getUpdateTypeWith (vr : String → Bool) (sat : SemVer → String → Bool)
    (currentVersion latestVersion : String) : UpdateType :=
  let cleanCurrent := coerce currentVersion
  let cleanLatest := coerce latestVersion
  if guardFails cleanCurrent cleanLatest then
    if toLowerStr currentVersion == "any" || currentVersion == "*" then
      UpdateType.none
    else
      let rangeOk := vr currentVersion &&
        (match cleanLatest with
         | some lat => sat lat currentVersion
         | Option.none => false)
      if !rangeOk && !(vr currentVersion) then
        UpdateType.none
      else if guardFails cleanCurrent cleanLatest then
        UpdateType.none
      else
        diffBranch cleanCurrent cleanLatest
  else
    diffBranch cleanCurrent cleanLatest

/-- getUpdateType of src/utils/versionUtils.ts with the semver models. -/
def getUpdateType (currentVersion latestVersion : String) : UpdateType :=
  getUpdateTypeWith validRangeModel satisfiesModel currentVersion latestVersion

/-- Leading operator characters recognised by the rewrite regular expression
class of updatePackageJsonDependency, updateComposerPackage and
updatePubDevPackage. -/
def isOpChar (c : Char) : Bool :=
  c == '~' || c == '^' || c == '>' || c == '=' || c == '<'

/-- Leading-operator capture on a character list: the regular expression has
no repetition, so it matches exactly one character when the first character
is in the class and nothing otherwise. -/
def leadingOpL : List Char → String
  | c :: _ => if isOpChar c then String.mk [c] else ""
  | [] => ""

/-- Embedding of the capture current.match of the leading-operator regular
expression in the npm, Composer and Dart updaters, with empty fallback. -/
def leadingOp (s : String) : String :=
  leadingOpL s.data

/-- Flat-specifier rewrite shared by updatePackageJsonDependency (npm),
updateComposerPackage (Composer) and the string case of updatePubDevPackage
(Dart): captured operator concatenated with the latest version. -/
def rewriteFlat (currentVersion latestVersion : String) : String :=
  leadingOp currentVersion ++ latestVersion

/-- A string that does not start with an operator character, i.e. a plain
version string rather than a constrained specifier. -/
def plainVersion (s : String) : Bool :=
  match s.data with
  | c :: _ => !isOpChar c
  | [] => true

/-- Value of a dependency entry in pubspec.yaml: a plain version string or a
composite object of named fields (hosted, git, path, sdk, version, ...). -/
inductive DepValue where
  | str : String → DepValue
  | obj : List (String × DepValue) → DepValue

/-- First binding of a key in an object, as JavaScript property access. -/
def lookupField : List (String × DepValue) → String → Option DepValue
  | [], _ => Option.none
  | (k, v) :: rest, key => if k == key then some v else lookupField rest key

/-- Assignment to the version property of an object: every binding named
version is replaced, all other bindings are untouched. -/
def setVersionField (fields : List (String × DepValue)) (newV : DepValue) :
    List (String × DepValue) :=
  fields.map fun kv => if kv.1 == "version" then (kv.1, newV) else kv

/-- Per-entry update of updatePubDevPackage (dartUpdater.ts): a string value
is rewritten with the operator-preserving rule; an object value is updated in
its version field only, provided that field holds a truthy (non-empty)
string. The result is none when the entry is not updated: a missing or empty
version field leaves the updated flag false, and a non-string version field
makes the source throw inside its try block, which is reported as failure. -/
def updatePubDevValue : DepValue → String → Option DepValue
  | .str s, latest => some (.str (rewriteFlat s latest))
  | .obj fields, latest =>
    match lookupField fields "version" with
    | some (.str vs) =>
      if vs == "" then Option.none
      else some (.obj (setVersionField fields (.str (rewriteFlat vs latest))))
    | _ => Option.none

/-- Helper of strIncludes: scan the suffixes of the first list for one that
starts with the second list. -/
def includesAux (sub : List Char) : List Char → Bool
  | [] => List.isPrefixOf sub []
  | c :: t => List.isPrefixOf sub (c :: t) || includesAux sub t

/-- Embedding of JavaScript String.prototype.includes. -/
def strIncludes (s sub : String) : Bool :=
  includesAux sub.data s.data

/-- Operator selection of updatePypiPackage (pythonUpdater.ts): the first
comparison operator found anywhere in the matched line, in the source's test
order, defaulting to == when none is present. -/
def pypiOperator (line : String) : String :=
  if strIncludes line "==" then "=="
  else if strIncludes line ">=" then ">="
  else if strIncludes line ">" then ">"
  else if strIncludes line "<=" then "<="
  else if strIncludes line "<" then "<"
  else if strIncludes line "~=" then "~="
  else "=="

/-- Line replacement of updatePypiPackage: the matched requirements line is
replaced by label, selected operator and latest version. -/
def updatePypiLine (label latestVersion line : String) : String :=
  label ++ pypiOperator line ++ latestVersion

/-! Helper lemmas about characters and strings. -/

/-- Lower-casing leaves decimal digits unchanged. -/
lemma toLower_of_digit (x : Char) (h : x.isDigit = true) : Char.toLower x = x := by
  unfold Char.toLower
  have hle : ¬ (x.toNat ≥ 65 ∧ x.toNat ≤ 90) := by
    simp only [Char.isDigit, Bool.and_eq_true, decide_eq_true_eq] at h
    obtain ⟨h1, h2⟩ := h
    have h2' : x.val.toNat ≤ (57 : UInt32).toNat := by
      rw [UInt32.le_def, BitVec.le_def] at h2
      exact h2
    have h57 : (57 : UInt32).toNat = 57 := rfl
    simp only [Char.toNat]
    omega
  simp [hle]

/-- A character whose lower-casing is a non-digit is itself a non-digit. -/
lemma notDigit_of_toLower (x t : Char) (h : Char.toLower x = t)
    (ht : t.isDigit = false) : x.isDigit = false := by
  cases hx : x.isDigit with
  | false => rfl
  | true =>
    rw [toLower_of_digit x hx] at h
    rw [h] at hx
    rw [hx] at ht
    exact absurd ht (by simp)

/-- Appending strings appends the underlying character lists. -/
lemma data_append (s t : String) : (s ++ t).data = s.data ++ t.data := by
  cases s; cases t; rfl

/-- The empty string is a left identity of append. -/
lemma empty_append (s : String) : "" ++ s = s := by
  cases s; rfl

/-- The list-level lower-casing agrees with String.toLower. -/
lemma toLowerStr_eq (s : String) : toLowerStr s = s.toLower := by
  rw [toLowerStr, String.toLower, String.map_eq]

/-! Lemmas about coercion. -/

/-- Coercion never produces pre-release identifiers (the scan loop). -/
lemma coerceAux_pre : ∀ fuel l v, coerceAux fuel l = some v → v.pre = [] := by
  intro fuel
  induction fuel with
  | zero => intro l v h; simp [coerceAux] at h
  | succ n ih =>
    intro l v h
    cases l with
    | nil => simp [coerceAux] at h
    | cons c cs =>
      simp only [coerceAux] at h
      split at h
      · split at h
        · split at h
          · cases h; rfl
          · split at h
            · cases h; rfl
            · cases h; rfl
        · exact ih _ _ h
      · exact ih _ _ h

/-- Coercion never produces pre-release identifiers. -/
lemma coerce_pre {s : String} {v : SemVer} (h : coerce s = some v) :
    v.pre = [] :=
  coerceAux_pre _ _ _ h

/-- The coercion scan fails on input without any digit. -/
lemma coerceAux_of_nodigit :
    ∀ fuel l, (∀ c ∈ l, c.isDigit = false) → coerceAux fuel l = Option.none := by
  intro fuel
  induction fuel with
  | zero => intro l _; simp [coerceAux]
  | succ n ih =>
    intro l h
    cases l with
    | nil => simp [coerceAux]
    | cons c cs =>
      have hc : c.isDigit = false := h c (List.mem_cons_self c cs)
      simp only [coerceAux, hc]
      exact ih cs fun x hx => h x (List.mem_cons_of_mem c hx)

/-- Coercion fails on a string without any digit. -/
lemma coerce_of_nodigit {s : String} (h : ∀ c ∈ s.data, c.isDigit = false) :
    coerce s = Option.none :=
  coerceAux_of_nodigit _ _ h

/-! Lemmas about version comparison. -/

lemma compareNumbers_lt {a b : Nat} (h : a < b) : compareNumbers a b = -1 := by
  simp [compareNumbers, h]

lemma compareNumbers_gt {a b : Nat} (h : b < a) : compareNumbers a b = 1 := by
  have h' : ¬ a < b := by omega
  simp [compareNumbers, h', h]

lemma compareNumbers_refl {a b : Nat} (h : a = b) : compareNumbers a b = 0 := by
  simp [compareNumbers, h]

lemma compareMain_lt_of_major {a b : SemVer} (h : a.major < b.major) :
    compareMain a b = -1 := by
  norm_num [compareMain, compareNumbers_lt h]

lemma compareMain_gt_of_major {a b : SemVer} (h : b.major < a.major) :
    compareMain a b = 1 := by
  norm_num [compareMain, compareNumbers_gt h]

lemma compareMain_lt_of_minor {a b : SemVer} (hM : a.major = b.major)
    (h : a.minor < b.minor) : compareMain a b = -1 := by
  norm_num [compareMain, compareNumbers_refl hM, compareNumbers_lt h]

lemma compareMain_gt_of_minor {a b : SemVer} (hM : a.major = b.major)
    (h : b.minor < a.minor) : compareMain a b = 1 := by
  norm_num [compareMain, compareNumbers_refl hM, compareNumbers_gt h]

lemma compareMain_lt_of_patch {a b : SemVer} (hM : a.major = b.major)
    (hm : a.minor = b.minor) (h : a.patch < b.patch) : compareMain a b = -1 := by
  norm_num [compareMain, compareNumbers_refl hM, compareNumbers_refl hm,
    compareNumbers_lt h]

lemma compareMain_gt_of_patch {a b : SemVer} (hM : a.major = b.major)
    (hm : a.minor = b.minor) (h : b.patch < a.patch) : compareMain a b = 1 := by
  norm_num [compareMain, compareNumbers_refl hM, compareNumbers_refl hm,
    compareNumbers_gt h]

lemma compareMain_refl_of {a b : SemVer} (hM : a.major = b.major)
    (hm : a.minor = b.minor) (hp : a.patch = b.patch) : compareMain a b = 0 := by
  norm_num [compareMain, compareNumbers_refl hM, compareNumbers_refl hm,
    compareNumbers_refl hp]

/-- On versions without pre-release identifiers, compare is compareMain. -/
lemma compareVer_nopre {a b : SemVer} (ha : a.pre = []) (hb : b.pre = []) :
    compareVer a b = compareMain a b := by
  by_cases h : compareMain a b = 0 <;> simp [compareVer, h, ha, hb, comparePre]

lemma gtVer_true_of {a b : SemVer} (ha : a.pre = []) (hb : b.pre = [])
    (h : compareMain a b = 1) : gtVer a b = true := by
  simp [gtVer, compareVer_nopre ha hb, h]

lemma gtVer_false_of {a b : SemVer} (ha : a.pre = []) (hb : b.pre = [])
    (h : compareMain a b = 0) : gtVer a b = false := by
  simp [gtVer, compareVer_nopre ha hb, h]

/-! Lemmas about semver.diff on coerced (pre-release free) versions. -/

lemma diffVer_nopre_major {a b : SemVer} (ha : a.pre = []) (hb : b.pre = [])
    (hcmp : compareMain a b = -1) (hmaj : a.major ≠ b.major) :
    diffVer a b = some DiffResult.major := by
  unfold diffVer
  rw [compareVer_nopre ha hb, hcmp]
  norm_num [ha, hb, diffMainSection, hmaj]

lemma diffVer_nopre_minor {a b : SemVer} (ha : a.pre = []) (hb : b.pre = [])
    (hcmp : compareMain a b = -1) (hmaj : a.major = b.major)
    (hmin : a.minor ≠ b.minor) : diffVer a b = some DiffResult.minor := by
  unfold diffVer
  rw [compareVer_nopre ha hb, hcmp]
  norm_num [ha, hb, diffMainSection, hmaj, hmin]

lemma diffVer_nopre_patch {a b : SemVer} (ha : a.pre = []) (hb : b.pre = [])
    (hcmp : compareMain a b = -1) (hmaj : a.major = b.major)
    (hmin : a.minor = b.minor) (hpat : a.patch ≠ b.patch) :
    diffVer a b = some DiffResult.patch := by
  unfold diffVer
  rw [compareVer_nopre ha hb, hcmp]
  norm_num [ha, hb, diffMainSection, hmaj, hmin, hpat]

/-- On versions without pre-release identifiers, semver.diff never answers
prerelease: the final fallthrough of the main section would need the main
triples equal, contradicting that the versions compare as different. -/
lemma diffVer_nopre_ne_prerelease {a b : SemVer} (ha : a.pre = [])
    (hb : b.pre = []) : diffVer a b ≠ some DiffResult.prerelease := by
  unfold diffVer
  by_cases h0 : compareVer a b = 0
  · simp [h0]
  · have hm : compareMain a b ≠ 0 := by
      rw [compareVer_nopre ha hb] at h0; exact h0
    have hpre : ∀ (p : Prop) (i : Decidable p),
        (if p then a else b).pre = [] := by
      intro p _
      split
      · exact ha
      · exact hb
    have hpre' : ∀ (p : Prop) (i : Decidable p),
        (if p then b else a).pre = [] := by
      intro p _
      split
      · exact hb
      · exact ha
    simp only [h0, if_false]
    rw [hpre, hpre']
    simp only [List.isEmpty_nil, Bool.not_true, Bool.false_and, Bool.if_false_left]
    unfold diffMainSection
    by_cases h1 : a.major ≠ b.major
    · simp [h1]
    · by_cases h2 : a.minor ≠ b.minor
      · simp [h1, h2]
      · by_cases h3 : a.patch ≠ b.patch
        · simp [h1, h2, h3]
        · push_neg at h1 h2 h3
          exact absurd (compareMain_refl_of h1 h2 h3) hm

/-- The diff section answers prerelease exactly when semver.diff does. -/
lemma diffBranch_pre_iff (a b : SemVer) :
    diffBranch (some a) (some b) = UpdateType.prerelease ↔
      diffVer a b = some DiffResult.prerelease := by
  rcases h : diffVer a b with _ | d
  · simp [diffBranch, h]
  · cases d <;> simp [diffBranch, h]

/-- Structural characterisation of getUpdateType: every path inside the
guard-failure branch returns none (the any/star check, the early return on an
invalid range, and the re-checked guard, whose condition is identical to the
one that was just found true), so the classifier's value does not depend on
the validRange and satisfies models at all. -/
theorem getUpdateTypeWith_characterization (vr : String → Bool)
    (sat : SemVer → String → Bool) (c l : String) :
    getUpdateTypeWith vr sat c l =
      match coerce c, coerce l with
      | some cur, some lat =>
        if gtVer lat cur then diffBranch (some cur) (some lat)
        else UpdateType.none
      | _, _ => UpdateType.none := by
  unfold getUpdateTypeWith
  rcases hc : coerce c with _ | cur <;> rcases hl : coerce l with _ | lat
  · simp [guardFails]
  · simp [guardFails]
  · simp [guardFails]
  · by_cases hgt : gtVer lat cur
    · simp [guardFails, hgt]
    · simp [guardFails, hgt]

/-- Characterisation of getUpdateType with the concrete semver models. -/
theorem getUpdateType_characterization (c l : String) :
    getUpdateType c l =
      match coerce c, coerce l with
      | some cur, some lat =>
        if gtVer lat cur then diffBranch (some cur) (some lat)
        else UpdateType.none
      | _, _ => UpdateType.none :=
  getUpdateTypeWith_characterization validRangeModel satisfiesModel c l

/-- When both sides coerce and the latest is strictly greater, getUpdateType
answers through the diff section. -/
lemma getUpdateType_diffcase {a b : String} {ta tb : SemVer}
    (ha : coerce a = some ta) (hb : coerce b = some tb)
    (hgt : gtVer tb ta = true) :
    getUpdateType a b = diffBranch (some ta) (some tb) := by
  rw [getUpdateType_characterization, ha, hb]
  simp [hgt]

/-! Lemmas about the rewrite rules. -/

/-- The captured operator of a specifier headed by an operator character. -/
lemma leadingOp_op {s : String} {c : Char} {rest : List Char}
    (h : s.data = c :: rest) (hc : isOpChar c = true) :
    leadingOp s = String.mk [c] := by
  simp [leadingOp, leadingOpL, h, hc]

/-- The captured operator of a plain version string is empty. -/
lemma leadingOp_plain {s : String} (h : plainVersion s = true) :
    leadingOp s = "" := by
  unfold plainVersion at h
  rcases hd : s.data with _ | ⟨c, t⟩
  · simp [leadingOp, leadingOpL, hd]
  · rw [hd] at h
    simp only [Bool.not_eq_true'] at h
    simp [leadingOp, leadingOpL, hd, h]

/-- Rewriting is pure replacement: a second rewrite of a rewritten flat
specifier with a plain new version replaces the same payload again. -/
lemma rewriteFlat_idem {s : String} (v1 v2 : String)
    (hp : plainVersion v1 = true) :
    rewriteFlat (rewriteFlat s v1) v2 = rewriteFlat s v2 := by
  unfold rewriteFlat
  rcases hd : s.data with _ | ⟨c, t⟩
  · have h1 : leadingOp s = "" := by simp [leadingOp, leadingOpL, hd]
    rw [h1, empty_append, leadingOp_plain hp]
  · by_cases hc : isOpChar c = true
    · have h1 : leadingOp s = String.mk [c] := leadingOp_op hd hc
      have h2 : (String.mk [c] ++ v1).data = c :: v1.data := by
        rw [data_append]; rfl
      have h3 : leadingOp (String.mk [c] ++ v1) = String.mk [c] :=
        leadingOp_op h2 hc
      rw [h1, h3]
    · have hc' : isOpChar c = false := by simpa using hc
      have h1 : leadingOp s = "" := by simp [leadingOp, leadingOpL, hd, hc']
      rw [h1, empty_append, leadingOp_plain hp]

/-- Rewriting a specifier with a non-empty version yields a non-empty
specifier. -/
lemma rewriteFlat_ne_empty {vs v1 : String} (h : v1 ≠ "") :
    rewriteFlat vs v1 ≠ "" := by
  intro he
  apply h
  have hd : (rewriteFlat vs v1).data = [] := by rw [he]
  rw [rewriteFlat, data_append] at hd
  have h2 := (List.append_eq_nil.mp hd).2
  cases v1 with
  | mk d =>
    simp only at h2
    rw [show d = ([] : List Char) from h2]

/-- Updating the version field keeps the key list (names and order). -/
lemma setVersionField_fst (fields : List (String × DepValue)) (x : DepValue) :
    (setVersionField fields x).map Prod.fst = fields.map Prod.fst := by
  induction fields with
  | nil => rfl
  | cons kv rest ih =>
    simp only [setVersionField, List.map_cons] at ih ⊢
    congr 1
    by_cases h : kv.1 == "version" <;> simp [h]

/-- Every binding other than version is untouched by the version update. -/
lemma mem_setVersionField {fields : List (String × DepValue)} {x : DepValue}
    {k : String} {v : DepValue} (hmem : (k, v) ∈ fields)
    (hk : k ≠ "version") : (k, v) ∈ setVersionField fields x := by
  unfold setVersionField
  have heq : (fun kv : String × DepValue =>
      if kv.1 == "version" then (kv.1, x) else kv) (k, v) = (k, v) := by
    simp [hk]
  exact heq ▸ List.mem_map_of_mem _ hmem

/-- After updating the version field, looking it up yields the new value,
provided the field was present. -/
lemma lookup_setVersionField (fields : List (String × DepValue)) (x : DepValue)
    (h : ∃ v, lookupField fields "version" = some v) :
    lookupField (setVersionField fields x) "version" = some x := by
  induction fields with
  | nil => simp [lookupField] at h
  | cons kv rest ih =>
    obtain ⟨k, v⟩ := kv
    cases hkb : (k == "version") with
    | true =>
      have hk' : k = "version" := by simpa using hkb
      subst hk'
      simp [setVersionField, lookupField]
    | false =>
      have hne : ¬ ((k == "version") = true) := by simp [hkb]
      have hset : setVersionField ((k, v) :: rest) x =
          (k, v) :: setVersionField rest x := by
        simp only [setVersionField, List.map_cons, if_neg hne]
      rw [hset]
      have hlook : lookupField ((k, v) :: setVersionField rest x) "version" =
          lookupField (setVersionField rest x) "version" := by
        simp only [lookupField, if_neg hne]
      rw [hlook]
      apply ih
      simp only [lookupField, if_neg hne] at h
      exact h

/-- Updating the version field twice is the same as updating it once with the
second value. -/
lemma setVersionField_setVersionField (fields : List (String × DepValue))
    (x y : DepValue) :
    setVersionField (setVersionField fields x) y = setVersionField fields y := by
  unfold setVersionField
  rw [List.map_map]
  congr 1
  funext kv
  by_cases hkb : (kv.1 == "version") = true
  · simp [Function.comp, hkb]
  · simp [Function.comp, hkb]

/-- Equation of the composite update when a non-empty string version field is
present: the version field receives the rewritten specifier. -/
lemma updatePubDevValue_obj {fields : List (String × DepValue)} {vs : String}
    (latest : String) (h : lookupField fields "version" = some (.str vs))
    (hv : vs ≠ "") :
    updatePubDevValue (.obj fields) latest =
      some (.obj (setVersionField fields (.str (rewriteFlat vs latest)))) := by
  have hbe : (vs == "") = false := by
    cases hb : (vs == "") with
    | false => rfl
    | true => exact absurd (by simpa using hb) hv
  simp [updatePubDevValue, h, hbe]

example : coerce "1.0.0-alpha" = some ⟨1, 0, 0, []⟩ := by decide
example : coerce "^1.2.3" = some ⟨1, 2, 3, []⟩ := by decide
example : coerce "any" = Option.none := by decide
example : getUpdateType "^1.2.3" "1.3.0" = UpdateType.minor := by decide
example : getUpdateType "^1.2.3" "2.0.0" = UpdateType.major := by decide
example : getUpdateType "1.2.3" "1.2.3" = UpdateType.none := by decide
example : getUpdateType "1.0.0-alpha" "1.0.0" = UpdateType.none := by decide
example : getUpdateType "any" "2.0.0" = UpdateType.none := by decide
example : rewriteFlat ">=1.0.0" "1.5.0" = ">1.5.0" := by decide
example : rewriteFlat "^1.0.0" "2.0.0" = "^2.0.0" := by decide
example : updatePypiLine "requests" "2.0.0" "requests" = "requests==2.0.0" := by decide

/-!
Claim theorems.
-/

/-- Claim C1, counterexample. The claim states that the full two-character
operator of a flat specifier is preserved, in particular
rewrite(">=1.0.0", "1.5.0") == ">=1.5.0"; the rewrite regular expression
captures a single character, so the code produces ">1.5.0" instead. -/
theorem claimC1_counterexample : rewriteFlat ">=1.0.0" "1.5.0" ≠ ">=1.5.0" := by
  decide

/-- Claim C1, amended. For a flat specifier whose first character is one of
~ ^ > = <, rewrite captures exactly that one character as the operator and
returns operator + newVersion; two-character operators lose their second
character, so rewrite(">=1.0.0", "1.5.0") == ">1.5.0", while one-character
operators are preserved in full and an operator-free specifier is replaced
verbatim. -/
theorem claimC1_amended :
    (∀ (cur latest : String) (c : Char) (rest : List Char),
        cur.data = c :: rest → isOpChar c = true →
        rewriteFlat cur latest = String.mk [c] ++ latest) ∧
    rewriteFlat ">=1.0.0" "1.5.0" = ">1.5.0" ∧
    rewriteFlat "^1.0.0" "2.0.0" = "^2.0.0" ∧
    rewriteFlat "~1.0.0" "1.2.0" = "~1.2.0" ∧
    rewriteFlat "1.0.0" "2.0.0" = "2.0.0" := by
  refine ⟨?_, by decide, by decide, by decide, by decide⟩
  intro cur latest c rest hd hc
  rw [rewriteFlat, leadingOp_op hd hc]

/-- Claim C1, witness for the amended statement at a concrete input. -/
theorem claimC1_witness :
    (">=1.0.0" : String).data = '>' :: ("=1.0.0" : String).data ∧
    isOpChar '>' = true ∧
    rewriteFlat ">=1.0.0" "1.5.0" = String.mk ['>'] ++ "1.5.0" := by
  refine ⟨by decide, by decide, ?_⟩
  exact claimC1_amended.1 ">=1.0.0" "1.5.0" '>' ("=1.0.0" : String).data
    (by decide) (by decide)

/-- Claim C2, counterexample. The claim states that
classify("1.0.0-alpha", "1.0.0") reports a prerelease update; the code
returns none at that input. -/
theorem claimC2_counterexample :
    getUpdateType "1.0.0-alpha" "1.0.0" ≠ UpdateType.prerelease := by
  decide

/-- Claim C2, amended. classify("1.0.0-alpha", "1.0.0") returns none:
coercion discards the pre-release suffix (both sides normalise to the bare
triple 1.0.0 with no pre-release tags), so the latest version is not strictly
greater and no update is reported. -/
theorem claimC2_amended :
    getUpdateType "1.0.0-alpha" "1.0.0" = UpdateType.none ∧
    coerce "1.0.0-alpha" = some ⟨1, 0, 0, []⟩ ∧
    coerce "1.0.0" = some ⟨1, 0, 0, []⟩ :=
  ⟨by decide, by decide, by decide⟩

/-- Claim C3, counterexample. The claim states that rewriting never inserts
an operator that was not present, in particular for a Python requirements
entry that names a package with no version constraint; the Python updater
defaults to == and turns the line "requests" into "requests==2.0.0". -/
theorem claimC3_counterexample :
    strIncludes "requests" "==" = false ∧
    updatePypiLine "requests" "2.0.0" "requests" = "requests==2.0.0" :=
  ⟨by decide, by decide⟩

/-- Claim C3, amended. For flat string specifiers (npm, Composer, Dart) with
no leading operator character, rewrite returns newVersion verbatim and
inserts no operator; the Python requirements updater is the exception: when
the matched line contains no comparison operator it inserts the default ==
operator. -/
theorem claimC3_amended :
    (∀ (cur latest : String), plainVersion cur = true →
        rewriteFlat cur latest = latest) ∧
    updatePypiLine "requests" "2.0.0" "requests" = "requests==2.0.0" := by
  refine ⟨?_, by decide⟩
  intro cur latest h
  rw [rewriteFlat, leadingOp_plain h, empty_append]

/-- Claim C3, witness for the amended statement at a concrete input. -/
theorem claimC3_witness :
    plainVersion "1.0.0" = true ∧ rewriteFlat "1.0.0" "2.0.0" = "2.0.0" :=
  ⟨by decide, claimC3_amended.1 "1.0.0" "2.0.0" (by decide)⟩

/-- Claim C4. getUpdateType is total: for every pair of input strings it
returns one of the five classification values (in the embedding every
control path of the source is a value of the five-valued type, never an
exception). -/
theorem claimC4_total : ∀ c l : String,
    getUpdateType c l = UpdateType.major ∨
    getUpdateType c l = UpdateType.minor ∨
    getUpdateType c l = UpdateType.patch ∨
    getUpdateType c l = UpdateType.prerelease ∨
    getUpdateType c l = UpdateType.none := by
  intro c l
  cases getUpdateType c l <;> simp

/-- Claim C5. On inputs that coerce to versions differing in exactly one
main component (the lower components equal), getUpdateType classifies the
update as that component: major, minor or patch respectively. -/
theorem claimC5_component :
    (∀ (a b : String) (ta tb : SemVer),
        coerce a = some ta → coerce b = some tb →
        ta.minor = tb.minor → ta.patch = tb.patch → ta.major < tb.major →
        getUpdateType a b = UpdateType.major) ∧
    (∀ (a b : String) (ta tb : SemVer),
        coerce a = some ta → coerce b = some tb →
        ta.major = tb.major → ta.patch = tb.patch → ta.minor < tb.minor →
        getUpdateType a b = UpdateType.minor) ∧
    (∀ (a b : String) (ta tb : SemVer),
        coerce a = some ta → coerce b = some tb →
        ta.major = tb.major → ta.minor = tb.minor → ta.patch < tb.patch →
        getUpdateType a b = UpdateType.patch) := by
  refine ⟨?_, ?_, ?_⟩
  · intro a b ta tb ha hb hmin hpat hmaj
    have hpa := coerce_pre ha
    have hpb := coerce_pre hb
    have hgt : gtVer tb ta = true :=
      gtVer_true_of hpb hpa (compareMain_gt_of_major hmaj)
    rw [getUpdateType_diffcase ha hb hgt]
    have hd : diffVer ta tb = some DiffResult.major :=
      diffVer_nopre_major hpa hpb (compareMain_lt_of_major hmaj) (by omega)
    simp [diffBranch, hd]
  · intro a b ta tb ha hb hmaj hpat hmin
    have hpa := coerce_pre ha
    have hpb := coerce_pre hb
    have hgt : gtVer tb ta = true :=
      gtVer_true_of hpb hpa (compareMain_gt_of_minor hmaj.symm hmin)
    rw [getUpdateType_diffcase ha hb hgt]
    have hd : diffVer ta tb = some DiffResult.minor :=
      diffVer_nopre_minor hpa hpb (compareMain_lt_of_minor hmaj hmin) hmaj
        (by omega)
    simp [diffBranch, hd]
  · intro a b ta tb ha hb hmaj hmin hpat
    have hpa := coerce_pre ha
    have hpb := coerce_pre hb
    have hgt : gtVer tb ta = true :=
      gtVer_true_of hpb hpa (compareMain_gt_of_patch hmaj.symm hmin.symm hpat)
    rw [getUpdateType_diffcase ha hb hgt]
    have hd : diffVer ta tb = some DiffResult.patch :=
      diffVer_nopre_patch hpa hpb (compareMain_lt_of_patch hmaj hmin hpat)
        hmaj hmin (by omega)
    simp [diffBranch, hd]

/-- Claim C5, witness at concrete inputs for the three cases. -/
theorem claimC5_witness :
    coerce "1.2.3" = some ⟨1, 2, 3, []⟩ ∧
    getUpdateType "1.2.3" "2.2.3" = UpdateType.major ∧
    getUpdateType "1.2.3" "1.3.3" = UpdateType.minor ∧
    getUpdateType "1.2.3" "1.2.4" = UpdateType.patch := by
  refine ⟨by decide, ?_, ?_, ?_⟩
  · exact claimC5_component.1 "1.2.3" "2.2.3" ⟨1, 2, 3, []⟩ ⟨2, 2, 3, []⟩
      (by decide) (by decide) rfl rfl (by decide)
  · exact claimC5_component.2.1 "1.2.3" "1.3.3" ⟨1, 2, 3, []⟩ ⟨1, 3, 3, []⟩
      (by decide) (by decide) rfl rfl (by decide)
  · exact claimC5_component.2.2 "1.2.3" "1.2.4" ⟨1, 2, 3, []⟩ ⟨1, 2, 4, []⟩
      (by decide) (by decide) rfl rfl (by decide)

/-- Claim C6. For a composite specifier with a (truthy string) version
field, rewrite replaces only that field using the operator-preserving rule:
the key list is unchanged (same keys, same order, hence same shape), every
binding other than version is untouched, and the version field holds the
rewritten specifier; the spec's concrete example is included. -/
theorem claimC6_composite :
    (∀ (fields : List (String × DepValue)) (vs latest : String),
        lookupField fields "version" = some (.str vs) → vs ≠ "" →
        updatePubDevValue (.obj fields) latest =
          some (.obj (setVersionField fields (.str (rewriteFlat vs latest)))) ∧
        (setVersionField fields (.str (rewriteFlat vs latest))).map Prod.fst =
          fields.map Prod.fst ∧
        (∀ (k : String) (v : DepValue), (k, v) ∈ fields → k ≠ "version" →
          (k, v) ∈ setVersionField fields (.str (rewriteFlat vs latest))) ∧
        lookupField (setVersionField fields (.str (rewriteFlat vs latest)))
          "version" = some (.str (rewriteFlat vs latest))) ∧
    updatePubDevValue
        (.obj [("version", .str "^1.0.0"), ("hosted", .obj [("url", .str "x")])])
        "2.0.0" =
      some (.obj [("version", .str "^2.0.0"),
        ("hosted", .obj [("url", .str "x")])]) := by
  refine ⟨?_, rfl⟩
  intro fields vs latest h hv
  exact ⟨updatePubDevValue_obj latest h hv, setVersionField_fst _ _,
    fun k v hm hk => mem_setVersionField hm hk,
    lookup_setVersionField _ _ ⟨_, h⟩⟩

/-- Claim C6, witness at the spec's concrete example. -/
theorem claimC6_witness :
    lookupField [("version", DepValue.str "^1.0.0"),
        ("hosted", DepValue.obj [("url", DepValue.str "x")])] "version" =
      some (DepValue.str "^1.0.0") ∧
    ("^1.0.0" : String) ≠ "" ∧
    (updatePubDevValue
        (.obj [("version", .str "^1.0.0"), ("hosted", .obj [("url", .str "x")])])
        "2.0.0" =
      some (.obj (setVersionField
        [("version", .str "^1.0.0"), ("hosted", .obj [("url", .str "x")])]
        (.str (rewriteFlat "^1.0.0" "2.0.0"))))) := by
  refine ⟨rfl, by decide, ?_⟩
  exact (claimC6_composite.1
    [("version", .str "^1.0.0"), ("hosted", .obj [("url", .str "x")])]
    "^1.0.0" "2.0.0" rfl (by decide)).1

/-- Claim C7. Rewriting is pure replacement: rewriting a rewritten specifier
equals rewriting the original, for flat string specifiers and for composite
specifiers with a version field (the intermediate new version being a plain
non-empty version string, as registry-fetched latest versions are). -/
theorem claimC7_idempotent :
    (∀ (s v1 v2 : String), plainVersion v1 = true →
        rewriteFlat (rewriteFlat s v1) v2 = rewriteFlat s v2) ∧
    (∀ (fields : List (String × DepValue)) (vs v1 v2 : String),
        lookupField fields "version" = some (.str vs) → vs ≠ "" →
        plainVersion v1 = true → v1 ≠ "" →
        (updatePubDevValue (.obj fields) v1).bind
            (fun y => updatePubDevValue y v2) =
          updatePubDevValue (.obj fields) v2) := by
  constructor
  · intro s v1 v2 hp
    exact rewriteFlat_idem v1 v2 hp
  · intro fields vs v1 v2 h hv hp1 hne
    rw [updatePubDevValue_obj v1 h hv]
    show updatePubDevValue
        (.obj (setVersionField fields (.str (rewriteFlat vs v1)))) v2 = _
    have hlook : lookupField (setVersionField fields (.str (rewriteFlat vs v1)))
        "version" = some (.str (rewriteFlat vs v1)) :=
      lookup_setVersionField _ _ ⟨_, h⟩
    rw [updatePubDevValue_obj v2 hlook (rewriteFlat_ne_empty hne),
      updatePubDevValue_obj v2 h hv, rewriteFlat_idem v1 v2 hp1,
      setVersionField_setVersionField]

/-- Claim C7, witness at concrete inputs for both conjuncts. -/
theorem claimC7_witness :
    plainVersion "2.0.0" = true ∧
    rewriteFlat (rewriteFlat "^1.0.0" "2.0.0") "3.0.0" =
      rewriteFlat "^1.0.0" "3.0.0" ∧
    (updatePubDevValue (.obj [("version", .str "~1.0.0")]) "2.0.0").bind
        (fun y => updatePubDevValue y "3.0.0") =
      updatePubDevValue (.obj [("version", .str "~1.0.0")]) "3.0.0" := by
  refine ⟨by decide, ?_, ?_⟩
  · exact claimC7_idempotent.1 "^1.0.0" "2.0.0" "3.0.0" (by decide)
  · exact claimC7_idempotent.2 [("version", .str "~1.0.0")] "~1.0.0"
      "2.0.0" "3.0.0" rfl (by decide) (by decide) (by decide)

/-- Claim C8. For every latest version string, getUpdateType returns none
when the current specifier case-insensitively equals any or is exactly the
star specifier. -/
theorem claimC8_any_star : ∀ (c l : String),
    (c.toLower = "any" ∨ c = "*") → getUpdateType c l = UpdateType.none := by
  intro c l h
  rcases h with h | h
  · have h' : toLowerStr c = "any" := by rw [toLowerStr_eq, h]
    have hmap : c.data.map Char.toLower = ['a', 'n', 'y'] := by
      have h2 := congrArg String.data h'
      rw [show ("any" : String).data = ['a', 'n', 'y'] from rfl] at h2
      exact h2
    rcases hd : c.data with _ | ⟨c1, t1⟩
    · rw [hd] at hmap
      exact absurd hmap (by simp)
    rcases t1 with _ | ⟨c2, t2⟩
    · rw [hd] at hmap
      exact absurd hmap (by simp)
    rcases t2 with _ | ⟨c3, t3⟩
    · rw [hd] at hmap
      exact absurd hmap (by simp)
    rcases t3 with _ | ⟨c4, t4⟩
    · rw [hd] at hmap
      simp only [List.map_cons, List.map_nil, List.cons.injEq, and_true]
        at hmap
      obtain ⟨h1, h2, h3⟩ := hmap
      have hnod : ∀ ch ∈ c.data, ch.isDigit = false := by
        rw [hd]
        intro ch hch
        simp only [List.mem_cons, List.not_mem_nil, or_false] at hch
        rcases hch with hch | hch | hch
        · exact hch ▸ notDigit_of_toLower c1 'a' h1 (by decide)
        · exact hch ▸ notDigit_of_toLower c2 'n' h2 (by decide)
        · exact hch ▸ notDigit_of_toLower c3 'y' h3 (by decide)
      have hco : coerce c = Option.none := coerce_of_nodigit hnod
      simp [getUpdateType, getUpdateTypeWith, hco, guardFails, h']
    · rw [hd] at hmap
      exact absurd hmap (by simp)
  · subst h
    have hco : coerce "*" = Option.none := by decide
    have hcond : (toLowerStr "*" == "any" || "*" == "*") = true := by decide
    simp [getUpdateType, getUpdateTypeWith, hco, guardFails, hcond]

/-- Claim C8, witness: a case variant of any and the star specifier. -/
theorem claimC8_witness :
    getUpdateType "ANY" "9.9.9" = UpdateType.none ∧
    getUpdateType "*" "9.9.9" = UpdateType.none := by
  constructor
  · exact claimC8_any_star "ANY" "9.9.9"
      (Or.inl (by rw [← toLowerStr_eq]; decide))
  · exact claimC8_any_star "*" "9.9.9" (Or.inr rfl)

/-- Claim C9. For every specifier that coerces to a version, comparing it
against itself reports no update. -/
theorem claimC9_self : ∀ (v : String) (t : SemVer),
    coerce v = some t → getUpdateType v v = UpdateType.none := by
  intro v t h
  rw [getUpdateType_characterization, h]
  have hp := coerce_pre h
  have hgt : gtVer t t = false :=
    gtVer_false_of hp hp (compareMain_refl_of rfl rfl rfl)
  simp [hgt]

/-- Claim C9, witness at a concrete version. -/
theorem claimC9_witness :
    coerce "1.2.3" = some ⟨1, 2, 3, []⟩ ∧
    getUpdateType "1.2.3" "1.2.3" = UpdateType.none :=
  ⟨by decide, claimC9_self "1.2.3" ⟨1, 2, 3, []⟩ (by decide)⟩

/-- Claim C10. getUpdateType never returns prerelease: both sides are
normalised by coercion, which discards any pre-release suffix, and
semver.diff of two pre-release-free versions is never prerelease. -/
theorem claimC10_no_prerelease : ∀ c l : String,
    getUpdateType c l ≠ UpdateType.prerelease := by
  intro c l
  rw [getUpdateType_characterization]
  rcases hc : coerce c with _ | cur
  · simp
  rcases hl : coerce l with _ | lat
  · simp
  by_cases hgt : gtVer lat cur = true
  · simp only [hgt, if_true]
    intro hpre
    exact diffVer_nopre_ne_prerelease (coerce_pre hc) (coerce_pre hl)
      ((diffBranch_pre_iff cur lat).mp hpre)
  · simp [hgt]

end PkgVersion
